import Mathlib

/-
Verification of the RiveSprite scene-orchestration core (rive-pixi).

The definitions below are a shallow embedding of `src/rive_pixi.js`:
the `RiveSprite` class state becomes an explicit `RiveSpriteState`
record, each method becomes a state-passing function, and calls into
the external Rive engine (advance, draw, pointer methods, the
state-change callback) are recorded as events in a trace.  Machine
numbers (timestamps, coordinates, scales) are modelled as rationals;
native-object lifetimes are modelled by giving every engine-bound
instance a fresh numeric id and recording `delete()` calls in a
`deleted` list.
-/

namespace RivePixi

/-- Fit options for the canvas (enum `Fit` in the source). -/
inductive Fit
  | Cover | Contain | Fill | FitWidth | FitHeight | None | ScaleDown
deriving DecidableEq, Repr

/-- Alignment options for the canvas (enum `Alignment` in the source). -/
inductive Alignment
  | Center | TopLeft | TopCenter | TopRight | CenterLeft
  | CenterRight | BottomLeft | BottomCenter | BottomRight
deriving DecidableEq, Repr

/-- Kind tag of a state-machine input (`SMIInput` type tags: bool / trigger / number). -/
inductive SMIType
  | bool | trigger | number
deriving DecidableEq, Repr

/-- An input declared by a state machine in the scene file: its name, kind
and current engine-side value (numeric encoding; booleans are 0/1). -/
structure SMInput where
  name : String
  type : SMIType
  value : Rat
deriving DecidableEq, Repr

/-- A state machine as enumerated by the scene description: name plus inputs. -/
structure StateMachineDesc where
  name : String
  inputs : List SMInput
deriving DecidableEq, Repr

/-- Artboard bounds (`artboard.bounds` with minX/minY/maxX/maxY). -/
structure Bounds where
  minX : Rat
  minY : Rat
  maxX : Rat
  maxY : Rat
deriving DecidableEq, Repr

/-- An artboard as enumerated by the scene description. -/
structure ArtboardDesc where
  name : String
  stateMachines : List StateMachineDesc
  animations : List String
  bounds : Bounds
deriving DecidableEq, Repr

/-- The parsed Rive file (`this._file`): the list of artboards; `defaultArtboard()`
is its first artboard. -/
structure RiveFile where
  artboards : List ArtboardDesc
deriving DecidableEq, Repr

/-- A live artboard instance (`this.artboard`): the description it was built
from plus a fresh id used to track `delete()` calls. -/
structure ArtboardInstance where
  id : Nat
  desc : ArtboardDesc
deriving DecidableEq, Repr

/-- A live `StateMachineInstance`.  `desc` is the machine looked up by
`artboard.stateMachineByName(name)`; it is `none` when that lookup failed
(the JS code still constructs and pushes an instance in that case). -/
structure SMInstance where
  id : Nat
  desc : Option StateMachineDesc
deriving DecidableEq, Repr

/-- `machine.name === name` as used by `unloadStateMachine`: an instance built
from a missing machine has no name, so it never matches. -/
def SMInstance.nameIs (m : SMInstance) (n : String) : Bool :=
  match m.desc with
  | some d => d.name == n
  | none => false

/-- A live `LinearAnimationInstance`: the resolved animation name (`none` when
`animationByName` failed) plus its id. -/
structure AnimInstance where
  id : Nat
  name : Option String
deriving DecidableEq, Repr

/-- `animation.name === name` as used by `stopAnimation`. -/
def AnimInstance.nameIs (a : AnimInstance) (n : String) : Bool :=
  match a.name with
  | some m => m == n
  | none => false

/-- A registry field (`SMIInput` handle stored in `this.inputFields`): its kind
tag, current value and the number of times `fire()` was invoked on it. -/
structure SMIField where
  type : SMIType
  value : Rat
  fired : Nat
deriving DecidableEq, Repr

/-- The cached alignment result (`this._aligned`): scale components `xx`, `yy`
and translation components `tx`, `ty`. -/
structure Aligned where
  xx : Rat
  yy : Rat
  tx : Rat
  ty : Rat
deriving DecidableEq, Repr

/-- The mutable state of a `RiveSprite` (the fields of the class that the
claims are about).  `riveLoaded` stands for `this._rive` being set,
`canvas` for `this._canvas`, `rendererLoaded` for `this._renderer`,
`onStateChangeSet` for `this.onStateChange` being a function.
`animFrame = 0` encodes the JS falsy initial handle.  `nextId` supplies
fresh instance ids and `deleted` records every native `delete()` call. -/
structure RiveSpriteState where
  riveLoaded : Bool
  file : Option RiveFile
  canvas : Bool
  rendererLoaded : Bool
  interactive : Bool
  onStateChangeSet : Bool
  artboard : Option ArtboardInstance
  animations : List AnimInstance
  stateMachines : List SMInstance
  inputFields : List (String × SMIField)
  aligned : Option Aligned
  fit : Fit
  align : Alignment
  maxWidth : Rat
  maxHeight : Rat
  enabled : Bool
  animFrame : Nat
  lastTime : Rat
  nextId : Nat
  deleted : List Nat
deriving DecidableEq, Repr

/-- `Map.get` on the input-field registry. -/
def mapGet (m : List (String × SMIField)) (k : String) : Option SMIField :=
  (m.find? (fun p => p.1 == k)).map (fun p => p.2)

/-- `Map.set` on the input-field registry: overwrite in place if the key is
present (JS `Map` keeps the original insertion position), append otherwise. -/
def mapSet (m : List (String × SMIField)) (k : String) (v : SMIField) : List (String × SMIField) :=
  if m.any (fun p => p.1 == k) then
    m.map (fun p => if p.1 == k then (k, v) else p)
  else
    m ++ [(k, v)]

/-- `translatePoint` (src/rive_pixi.js:442-446): convert a global point to
sprite-local coordinates via the host (`toLocal`, supplied by Pixi), then
invert the cached alignment, falling back to
`{ tx: 0, ty: 0, xx: 1, yy: 1 }` when no alignment result is cached. -/
def translatePoint (toLocal : Rat × Rat → Rat × Rat) (s : RiveSpriteState)
    (global : Rat × Rat) : Rat × Rat :=
  let p := toLocal global
  let a := s.aligned.getD ⟨1, 1, 0, 0⟩
  ((p.1 - a.tx) / a.xx, (p.2 - a.ty) / a.yy)

/-- The forward alignment transform, modelled from the spec: scale a scene
point by the alignment scales, then translate (`frame = scene * scale +
translate`).  `translatePoint` inverts this map. -/
def forwardTransform (a : Aligned) (scene : Rat × Rat) : Rat × Rat :=
  (scene.1 * a.xx + a.tx, scene.2 * a.yy + a.ty)

/-- The `onpointerdown` handler installed by `initEvents`
(src/rive_pixi.js:251-268): only wired when the sprite is interactive; it
translates the event point once and forwards it to every active state
machine, in list order.  The result is the list of `pointerDown` calls as
(machine id, forwarded point) pairs. -/
def pointerDownCalls (toLocal : Rat × Rat → Rat × Rat) (s : RiveSpriteState)
    (global : Rat × Rat) : List (Nat × (Rat × Rat)) :=
  if s.interactive then
    let point := translatePoint toLocal s global
    s.stateMachines.map (fun m => (m.id, point))
  else []

/-- `stopAnimation` (src/rive_pixi.js:369-378): filter the animations list,
deleting (and dropping) every instance whose name matches. -/
def stopAnimation (s : RiveSpriteState) (name : String) : RiveSpriteState :=
  { s with
    animations := s.animations.filter (fun a => !a.nameIs name)
    deleted := (s.animations.filter (fun a => a.nameIs name)).map (fun a => a.id) ++ s.deleted }

/-- `unloadStateMachine` (src/rive_pixi.js:331-340): filter the state-machine
list, deleting (and dropping) every instance whose name matches. -/
def unloadStateMachine (s : RiveSpriteState) (name : String) : RiveSpriteState :=
  { s with
    stateMachines := s.stateMachines.filter (fun m => !m.nameIs name)
    deleted := (s.stateMachines.filter (fun m => m.nameIs name)).map (fun m => m.id) ++ s.deleted }

/-- One `inputFields.set` pass for a single machine in `initInputFields`:
classify each input by kind tag and insert name → field handle (last writer
wins).  An instance built from a missing machine exposes no inputs. -/
def machineFields (m : SMInstance) (tbl : List (String × SMIField)) : List (String × SMIField) :=
  match m.desc with
  | some d => d.inputs.foldl (fun tbl i => mapSet tbl i.name ⟨i.type, i.value, 0⟩) tbl
  | none => tbl

/-- `initInputFields` (src/rive_pixi.js:495-511): clear the registry, then for
every active state machine snapshot its inputs into the registry. -/
def initInputFields (s : RiveSpriteState) : RiveSpriteState :=
  { s with inputFields := s.stateMachines.foldl (fun tbl m => machineFields m tbl) [] }

/-- `artboard.stateMachineByName(name)`: engine lookup by name. -/
def stateMachineByName (ab : ArtboardDesc) (name : String) : Option StateMachineDesc :=
  ab.stateMachines.find? (fun d => d.name == name)

/-- `loadStateMachine` (src/rive_pixi.js:311-326).  The `machines` argument is
the resolved name list (a single JS string becomes a singleton list).  An
empty list selects the artboard's first state machine if it has one.  For
each name: look the machine up, unload any instance of that name, push a
fresh instance; finally rebuild the input-field registry.  No-op when no
artboard is loaded or the engine is absent. -/
def loadStateMachine (s : RiveSpriteState) (machines : List String) : RiveSpriteState :=
  match s.artboard with
  | none => s
  | some ab =>
    if !s.riveLoaded then s
    else
      let names :=
        if machines.isEmpty then
          match ab.desc.stateMachines.head? with
          | some d => [d.name]
          | none => []
        else machines
      let s := names.foldl (fun s name =>
        let machine := stateMachineByName ab.desc name
        let s := unloadStateMachine s name
        { s with
          stateMachines := s.stateMachines ++ [⟨s.nextId, machine⟩]
          nextId := s.nextId + 1 }) s
      initInputFields s

/-- `playAnimation` (src/rive_pixi.js:351-365).  The guard in the source is
`if (!this.artboard && !this._rive) return;` — it returns only when BOTH the
artboard and the engine are absent.  When the guard is passed with no
artboard, the subsequent `this.artboard.animationByIndex(0)` /
`this.artboard.animationByName(name)` dereference of `undefined` throws a
TypeError, modelled as `none`. -/
def playAnimation (s : RiveSpriteState) (animations : List String) : Option RiveSpriteState :=
  if s.artboard.isNone && !s.riveLoaded then some s
  else
    let resolved : Option (List String) :=
      if animations.isEmpty && s.stateMachines.isEmpty then
        match s.artboard with
        | none => none
        | some ab =>
          match ab.desc.animations.head? with
          | some n => some [n]
          | none => some []
      else some animations
    match resolved with
    | none => none
    | some names =>
      if names.isEmpty then
        some s
      else
        match s.artboard with
        | none => none
        | some ab =>
          if !s.riveLoaded then none
          else
            some (names.foldl (fun s name =>
              let anim := ab.desc.animations.find? (fun n => n == name)
              let s := stopAnimation s name
              { s with
                animations := s.animations ++ [⟨s.nextId, anim⟩]
                nextId := s.nextId + 1 }) s)

/-- `updateSize` (src/rive_pixi.js:419-436): when an artboard, the engine and
the renderer are all present, recompute the alignment result from the
artboard bounds and the configured fit/align/max sizes (`this.maxWidth ||
width` uses JS falsiness of 0) and cache it.  `computeAlignment` is the
engine's pure alignment function, supplied as a parameter. -/
def updateSize (computeAlignment : Fit → Alignment → Bounds → Bounds → Aligned)
    (s : RiveSpriteState) : RiveSpriteState :=
  match s.artboard with
  | some ab =>
    if s.riveLoaded && s.rendererLoaded then
      let bounds := ab.desc.bounds
      let width := bounds.maxX - bounds.minX
      let height := bounds.maxY - bounds.minY
      let maxWidth := if s.maxWidth = 0 then width else s.maxWidth
      let maxHeight := if s.maxHeight = 0 then height else s.maxHeight
      let frame : Bounds := ⟨0, 0, maxWidth, maxHeight⟩
      { s with aligned := some (computeAlignment s.fit s.align frame bounds) }
    else s
  | none => s

/-- `this._file.artboardByName(name)` / `this._file.defaultArtboard()`. -/
def artboardByName (f : RiveFile) (name : Option String) : Option ArtboardDesc :=
  match name with
  | some n => f.artboards.find? (fun a => a.name == n)
  | none => f.artboards.head?

/-- `loadArtboard` (src/rive_pixi.js:293-304): delete the current artboard
instance if present (without clearing the field), then, when the file and
canvas exist, install the named (or default) artboard — `none` when the
lookup fails — and finally run `updateSize`.  The animations and
state-machine lists are not touched. -/
def loadArtboard (computeAlignment : Fit → Alignment → Bounds → Bounds → Aligned)
    (s : RiveSpriteState) (name : Option String) : RiveSpriteState :=
  let s :=
    match s.artboard with
    | some ab => { s with deleted := ab.id :: s.deleted }
    | none => s
  let s :=
    if s.file.isSome && s.canvas then
      match s.file with
      | some f =>
        { s with artboard := (artboardByName f name).map (fun d => ⟨s.nextId, d⟩)
                 nextId := s.nextId + 1 }
      | none => s
    else s
  updateSize computeAlignment s

/-- `setInputValue` (src/rive_pixi.js:526-531): write only when the field
exists and its kind differs from `this._rive?.SMIInput.trigger`.  When the
engine is absent that expression is `undefined`, which no real kind tag
equals, so the guard passes for any existing field. -/
def setInputValue (s : RiveSpriteState) (name : String) (value : Rat) : RiveSpriteState :=
  match mapGet s.inputFields name with
  | none => s
  | some input =>
    let triggerTag : Option SMIType := if s.riveLoaded then some SMIType.trigger else none
    if some input.type ≠ triggerTag then
      { s with inputFields := mapSet s.inputFields name { input with value := value } }
    else s

/-- `fireTrigger` (src/rive_pixi.js:536-541): fire only when the field exists
and its kind equals `this._rive?.SMIInput.trigger` (never satisfied when the
engine is absent).  A fire is recorded by bumping the field's counter. -/
def fireTrigger (s : RiveSpriteState) (name : String) : RiveSpriteState :=
  match mapGet s.inputFields name with
  | none => s
  | some input =>
    if s.riveLoaded && input.type = SMIType.trigger then
      { s with inputFields := mapSet s.inputFields name { input with fired := input.fired + 1 } }
    else s

/-- `getInputValue` (src/rive_pixi.js:517-520). -/
def getInputValue (s : RiveSpriteState) (name : String) : Option Rat :=
  (mapGet s.inputFields name).map (fun f => f.value)

/-- Observable engine calls made during a frame step, in call order.
`smAdvance`/`animAdvance`/`artboardAdvance` carry the elapsed seconds passed
to the engine; `stateChangeCb` records one invocation of the user's
`onStateChange` callback payload; `animApply` is `a.apply(1)`; `draw` stands
for the clear/draw/flush/texture-update block. -/
inductive Ev
  | smAdvance (id : Nat) (elapsed : Rat)
  | stateChangeCb (names : List String)
  | animAdvance (id : Nat) (elapsed : Rat)
  | animApply (id : Nat)
  | artboardAdvance (elapsed : Rat)
  | draw
deriving DecidableEq, Repr

/-- What the engine reports as changed states for one machine during one
advance: a function from the instance id to the list of newly active state
names, supplied as an oracle for the step. -/
def ChangedStates : Type := Nat → List String

/-- `advanceStateMachines` (src/rive_pixi.js:468-481) as a trace: for each
machine in list order, advance it; then, if the callback is set and the
machine reports a non-zero `stateChangedCount`, collect the changed names
and (if the collected list is non-empty) invoke the callback with it. -/
def advanceStateMachines (cbSet : Bool) (changed : ChangedStates)
    (machines : List SMInstance) (elapsed : Rat) : List Ev :=
  (machines.map (fun m =>
    let states := changed m.id
    Ev.smAdvance m.id elapsed ::
      (if cbSet && !states.isEmpty then
        if !states.isEmpty then [Ev.stateChangeCb states] else []
      else []))).flatten

/-- `advanceAnimations` (src/rive_pixi.js:486-491) as a trace: advance then
apply each animation instance, in list order. -/
def advanceAnimations (animations : List AnimInstance) (elapsed : Rat) : List Ev :=
  (animations.map (fun a => [Ev.animAdvance a.id elapsed, Ev.animApply a.id])).flatten

/-- The host's animation-frame scheduler: a handle counter (handles start at
1, so 0 is never a valid handle) and the queue of scheduled callbacks. -/
structure Host where
  nextHandle : Nat
  pending : List Nat
deriving DecidableEq, Repr

/-- `requestAnimationFrame`: return a fresh handle and queue the callback. -/
def Host.raf (h : Host) : Nat × Host :=
  (h.nextHandle, ⟨h.nextHandle + 1, h.pending ++ [h.nextHandle]⟩)

/-- `cancelAnimationFrame`: drop the handle from the queue (no-op when the
handle is not pending, e.g. because its callback already fired). -/
def Host.caf (h : Host) (n : Nat) : Host :=
  { h with pending := h.pending.filter (fun m => m ≠ n) }

/-- A sprite together with the host scheduler it schedules frames on. -/
structure Sys where
  sprite : RiveSpriteState
  host : Host
deriving DecidableEq, Repr

/-- The body of `renderLoop` (src/rive_pixi.js:198-218): baseline `lastTime`
on the first-ever call, compute elapsed seconds, and when an artboard and
renderer are present advance state machines, then animations, then the
artboard, then draw.  Finally, while enabled, reschedule — note the source
DISCARDS the new handle (`this._rive.requestAnimationFrame(this.renderLoop)`
without assignment), so `_animFrame` keeps its old value. -/
def renderLoop (changed : ChangedStates) (sys : Sys) (time : Rat) : Sys × List Ev :=
  let s := sys.sprite
  let lastTime := if s.lastTime = 0 then time else s.lastTime
  let elapsed := (time - lastTime) / 1000
  let s := { s with lastTime := time }
  let trace :=
    if s.artboard.isSome && s.rendererLoaded then
      advanceStateMachines s.onStateChangeSet changed s.stateMachines elapsed
        ++ advanceAnimations s.animations elapsed
        ++ [Ev.artboardAdvance elapsed, Ev.draw]
    else []
  let host :=
    if s.riveLoaded && s.enabled then (sys.host.raf).2
    else sys.host
  (⟨s, host⟩, trace)

/-- `enable` (src/rive_pixi.js:272-277): set the flag; schedule the first
frame only when `_animFrame` is falsy, recording its handle. -/
def enable (sys : Sys) : Sys :=
  let s := { sys.sprite with enabled := true }
  if s.animFrame = 0 && s.riveLoaded then
    let (h, host) := sys.host.raf
    ⟨{ s with animFrame := h }, host⟩
  else ⟨s, sys.host⟩

/-- `disable` (src/rive_pixi.js:281-287): clear the flag; cancel the frame
whose handle was recorded (which may be stale) and reset the handle. -/
def disable (sys : Sys) : Sys :=
  let s := { sys.sprite with enabled := false }
  if s.animFrame ≠ 0 && s.riveLoaded then
    ⟨{ s with animFrame := 0 }, sys.host.caf s.animFrame⟩
  else ⟨s, sys.host⟩

/-- One host frame tick at timestamp `time`: if a callback is queued, dequeue
the earliest and run `renderLoop`; otherwise nothing happens and the trace
is empty. -/
def hostTick (changed : ChangedStates) (sys : Sys) (time : Rat) : Sys × List Ev :=
  match sys.host.pending with
  | [] => (sys, [])
  | _ :: rest => renderLoop changed ⟨sys.sprite, { sys.host with pending := rest }⟩ time

/-- The callback payloads appearing in a trace, in invocation order. -/
def cbPayloads (t : List Ev) : List (List String) :=
  t.filterMap (fun e =>
    match e with
    | Ev.stateChangeCb names => some names
    | _ => none)

/-- How many times the state-change callback was invoked in a trace. -/
def cbCount (t : List Ev) : Nat :=
  (cbPayloads t).length

/-- Phase rank of an event inside one frame step: the state-machine phase
(advances and callback invocations), then the animation phase, then the
artboard advance, then drawing. -/
def evRank : Ev → Nat
  | Ev.smAdvance _ _ => 0
  | Ev.stateChangeCb _ => 0
  | Ev.animAdvance _ _ => 1
  | Ev.animApply _ => 1
  | Ev.artboardAdvance _ => 2
  | Ev.draw => 3

/-! Concrete fixtures used to evaluate the embedding at specific inputs. -/

/-- A freshly constructed sprite after `initRive` resolved: engine, canvas and
renderer present, nothing loaded yet, playback disabled. -/
def baseState : RiveSpriteState where
  riveLoaded := true
  file := none
  canvas := true
  rendererLoaded := true
  interactive := true
  onStateChangeSet := true
  artboard := none
  animations := []
  stateMachines := []
  inputFields := []
  aligned := none
  fit := Fit.Contain
  align := Alignment.Center
  maxWidth := 0
  maxHeight := 0
  enabled := false
  animFrame := 0
  lastTime := 0
  nextId := 10
  deleted := []

/-- A sample state machine exposing one boolean and one trigger input. -/
def smD : StateMachineDesc :=
  ⟨"M", [⟨"Active", SMIType.bool, 0⟩, ⟨"Go", SMIType.trigger, 0⟩]⟩

/-- A sample artboard with one state machine and one timeline animation. -/
def abD : ArtboardDesc := ⟨"A", [smD], ["walk"], ⟨0, 0, 100, 50⟩⟩

/-- A sample scene file with the single artboard `abD`. -/
def fileD : RiveFile := ⟨[abD]⟩

/-- A concrete stand-in for the engine's `computeAlignment`. -/
def comp0 : Fit → Alignment → Bounds → Bounds → Aligned := fun _ _ _ _ => ⟨1, 1, 0, 0⟩

/-- A sprite with a loaded scene and artboard plus one live animation
instance (id 1) and one live state-machine instance (id 2). -/
def loadedSprite : RiveSpriteState := { baseState with
  file := some fileD
  artboard := some ⟨0, abD⟩
  animations := [⟨1, some "walk"⟩]
  stateMachines := [⟨2, some smD⟩] }

/-- A sprite with a loaded artboard and two live state machines (ids 1, 2),
used to exercise the state-change callback path. -/
def twoMachineSprite : RiveSpriteState := { baseState with
  artboard := some ⟨0, abD⟩
  stateMachines := [⟨1, some smD⟩, ⟨2, some smD⟩] }

/-- A sprite with a loaded scene and artboard and no instances, used to
drive the frame-driver runs. -/
def runSprite : RiveSpriteState := { baseState with
  file := some fileD
  artboard := some ⟨0, abD⟩ }

/-- A changed-states oracle reporting no state changes. -/
def chg0 : ChangedStates := fun _ => []

/-- Frame-driver run for C4: enable, tick at t=1000, tick at t=2000. -/
def run4a : Sys := enable ⟨runSprite, ⟨1, []⟩⟩

/-- First tick of the C4 run (records the baseline timestamp). -/
def run4b : Sys × List Ev := hostTick chg0 run4a 1000

/-- Second tick of the C4 run (a normal advancing tick). -/
def run4c : Sys × List Ev := hostTick chg0 run4b.1 2000

/-- `disable()` after the second tick. -/
def run4d : Sys := disable run4c.1

/-- The host frame tick after `disable()` (at t=3000). -/
def run4e : Sys × List Ev := hostTick chg0 run4d 3000

/-- `enable()` after the disabled period. -/
def run4f : Sys := enable run4e.1

/-- The first tick after re-enabling (at t=10000). -/
def run4g : Sys × List Ev := hostTick chg0 run4f 10000

/-! Theorems. -/

/-- Overwriting a present key rewrites exactly the matching entries, so a
subsequent lookup of that key finds the new value (first match included). -/
theorem find?_map_overwrite (m : List (String × SMIField)) (k : String) (v : SMIField) :
    (m.map (fun p => if p.1 == k then (k, v) else p)).find? (fun p => p.1 == k)
      = if m.any (fun p => p.1 == k) then some (k, v) else none := by
  induction m with
  | nil => simp
  | cons hd tl ih =>
    by_cases hk : hd.1 == k
    · simp only [List.map_cons, hk, if_pos, List.any_cons, Bool.true_or]
      rw [List.find?_cons_of_pos _ (by simp)]
    · simp only [List.map_cons, hk, if_neg, Bool.false_eq_true, not_false_iff, List.any_cons,
        Bool.false_or]
      rw [List.find?_cons_of_neg _ (by simp [hk]), ih]

/-- Looking up a different key is unaffected by an overwrite pass. -/
theorem find?_map_overwrite_ne (m : List (String × SMIField)) (k k' : String) (v : SMIField)
    (h : k' ≠ k) :
    (m.map (fun p => if p.1 == k then (k, v) else p)).find? (fun p => p.1 == k')
      = m.find? (fun p => p.1 == k') := by
  induction m with
  | nil => simp
  | cons hd tl ih =>
    by_cases hk : hd.1 == k
    · have hdk : hd.1 = k := by simpa [beq_iff_eq] using hk
      have h1 : ((k : String) == k') = false := by
        simp only [beq_eq_false_iff_ne, ne_eq]
        exact fun hkk => h hkk.symm
      have h2 : (hd.1 == k') = false := by rw [hdk]; exact h1
      simp only [List.map_cons, hk, if_pos, List.find?_cons, h1, h2, ih]
    · simp only [List.map_cons, hk, if_neg, Bool.false_eq_true, not_false_iff, List.find?_cons]
      cases hk2 : (hd.1 == k') <;> simp only [hk2, ih]

/-- After `mapSet m k v`, looking up `k` yields `v`. -/
theorem mapGet_mapSet_self (m : List (String × SMIField)) (k : String) (v : SMIField) :
    mapGet (mapSet m k v) k = some v := by
  unfold mapGet mapSet
  by_cases h : m.any (fun p => p.1 == k)
  · rw [if_pos h, find?_map_overwrite, if_pos h]
    rfl
  · rw [if_neg h, List.find?_append]
    have hnone : m.find? (fun p => p.1 == k) = none := by
      rw [List.find?_eq_none]
      intro x hx hpx
      exact h (List.any_eq_true.2 ⟨x, hx, hpx⟩)
    rw [hnone]
    simp

/-- After `mapSet m k v`, looking up any other key is unchanged. -/
theorem mapGet_mapSet_ne (m : List (String × SMIField)) (k k' : String) (v : SMIField)
    (h : k' ≠ k) :
    mapGet (mapSet m k v) k' = mapGet m k' := by
  unfold mapGet mapSet
  by_cases hp : m.any (fun p => p.1 == k)
  · rw [if_pos hp, find?_map_overwrite_ne m k k' v h]
  · rw [if_neg hp, List.find?_append]
    have htail : ([(k, v)] : List (String × SMIField)).find? (fun p => p.1 == k') = none := by
      simp [beq_iff_eq]
      exact fun hkk => h hkk.symm
    rw [htail]
    cases m.find? (fun p => p.1 == k') <;> rfl

/-- C9: with the engine loaded, `setInputValue` writes the value exactly when
a field of that name exists in the registry and its kind is not trigger, and
it leaves every other entry unchanged; `fireTrigger` fires (bumps the fire
counter of) exactly the named field when it exists and is a trigger; in all
other cases — missing field, trigger passed to `setInputValue`, non-trigger
passed to `fireTrigger` — the state is left completely unchanged. -/
theorem input_registry_set_fire (s : RiveSpriteState) (name : String) (value : Rat)
    (hr : s.riveLoaded = true) :
    (∀ f, mapGet s.inputFields name = some f → f.type ≠ SMIType.trigger →
        mapGet (setInputValue s name value).inputFields name = some ⟨f.type, value, f.fired⟩ ∧
        ∀ k, k ≠ name →
          mapGet (setInputValue s name value).inputFields k = mapGet s.inputFields k) ∧
    (∀ f, mapGet s.inputFields name = some f → f.type = SMIType.trigger →
        setInputValue s name value = s) ∧
    (mapGet s.inputFields name = none → setInputValue s name value = s) ∧
    (∀ f, mapGet s.inputFields name = some f → f.type = SMIType.trigger →
        mapGet (fireTrigger s name).inputFields name = some ⟨f.type, f.value, f.fired + 1⟩ ∧
        ∀ k, k ≠ name →
          mapGet (fireTrigger s name).inputFields k = mapGet s.inputFields k) ∧
    (∀ f, mapGet s.inputFields name = some f → f.type ≠ SMIType.trigger →
        fireTrigger s name = s) ∧
    (mapGet s.inputFields name = none → fireTrigger s name = s) := by
  refine ⟨?_, ?_, ?_, ?_, ?_, ?_⟩
  · intro f hf hft
    unfold setInputValue
    simp only [hf, hr, if_true]
    rw [if_pos (by simpa using hft)]
    exact ⟨mapGet_mapSet_self _ _ _, fun k hk => mapGet_mapSet_ne _ _ _ _ hk⟩
  · intro f hf hft
    unfold setInputValue
    simp only [hf, hr, if_true]
    rw [if_neg (by simp [hft])]
  · intro hf
    unfold setInputValue
    simp only [hf]
  · intro f hf hft
    unfold fireTrigger
    simp only [hf]
    rw [if_pos (by simp [hr, hft])]
    exact ⟨mapGet_mapSet_self _ _ _, fun k hk => mapGet_mapSet_ne _ _ _ _ hk⟩
  · intro f hf hft
    unfold fireTrigger
    simp only [hf]
    rw [if_neg (by simp [hft])]
  · intro hf
    unfold fireTrigger
    simp only [hf]

/-- Witness for C9 on a registry with a boolean field and a trigger field:
writing the boolean succeeds and firing it is rejected; the trigger rejects
writes and fires. -/
theorem input_registry_set_fire_witness :
    mapGet (setInputValue
        { baseState with inputFields := [("Active", ⟨SMIType.bool, 0, 0⟩),
                                         ("Go", ⟨SMIType.trigger, 0, 0⟩)] }
        "Active" 1).inputFields "Active" = some ⟨SMIType.bool, 1, 0⟩ ∧
    setInputValue
        { baseState with inputFields := [("Active", ⟨SMIType.bool, 0, 0⟩),
                                         ("Go", ⟨SMIType.trigger, 0, 0⟩)] }
        "Go" 1
      = { baseState with inputFields := [("Active", ⟨SMIType.bool, 0, 0⟩),
                                         ("Go", ⟨SMIType.trigger, 0, 0⟩)] } ∧
    mapGet (fireTrigger
        { baseState with inputFields := [("Active", ⟨SMIType.bool, 0, 0⟩),
                                         ("Go", ⟨SMIType.trigger, 0, 0⟩)] }
        "Go").inputFields "Go" = some ⟨SMIType.trigger, 0, 1⟩ := by
  refine ⟨?_, ?_, ?_⟩
  · exact ((input_registry_set_fire
      { baseState with inputFields := [("Active", ⟨SMIType.bool, 0, 0⟩),
                                       ("Go", ⟨SMIType.trigger, 0, 0⟩)] }
      "Active" 1 rfl).1 ⟨SMIType.bool, 0, 0⟩ (by decide) (by decide)).1
  · exact (input_registry_set_fire
      { baseState with inputFields := [("Active", ⟨SMIType.bool, 0, 0⟩),
                                       ("Go", ⟨SMIType.trigger, 0, 0⟩)] }
      "Go" 1 rfl).2.1 ⟨SMIType.trigger, 0, 0⟩ (by decide) rfl
  · exact ((input_registry_set_fire
      { baseState with inputFields := [("Active", ⟨SMIType.bool, 0, 0⟩),
                                       ("Go", ⟨SMIType.trigger, 0, 0⟩)] }
      "Go" 1 rfl).2.2.2.1 ⟨SMIType.trigger, 0, 0⟩ (by decide) rfl).1

/-- C1: on a sprite with a live artboard, one active animation instance
(id 1) and one active state-machine instance (id 2), `loadArtboard` deletes
only the artboard instance (id 0): both instance lists come out unchanged
and non-empty, and neither instance id is ever passed to `delete()`.  This
contradicts the claimed post-condition (both lists empty, all instances
destroyed before the new artboard is installed): the code has no teardown of
`animations`/`stateMachines` in `loadArtboard`, even though its own
`destroy()` deletes them before the artboard. -/
theorem loadArtboard_keeps_instances :
    (loadArtboard comp0 loadedSprite none).animations = [⟨1, some "walk"⟩] ∧
    (loadArtboard comp0 loadedSprite none).stateMachines = [⟨2, some smD⟩] ∧
    (loadArtboard comp0 loadedSprite none).deleted = [0] := by
  decide

/-- C3: with the engine loaded but no artboard, `playAnimation` is not a
no-op: its guard `if (!this.artboard && !this._rive) return` passes (only
one of the two is absent), and the subsequent dereference of the missing
artboard (`animationByIndex(0)` for empty input with no state machines,
`animationByName(name)` for a named input) throws — modelled as `none`. -/
theorem playAnimation_throws_without_artboard :
    playAnimation baseState [] = none ∧
    playAnimation baseState ["walk"] = none := by
  decide

/-- C6: translating a frame-local point through `translatePoint` using a
cached alignment result with non-zero scales and then re-applying the
forward transform (scale then translate) recovers the original frame-local
point exactly. -/
theorem translate_roundtrip (toLocal : Rat × Rat → Rat × Rat) (s : RiveSpriteState)
    (a : Aligned) (g : Rat × Rat) (ha : s.aligned = some a)
    (hx : a.xx ≠ 0) (hy : a.yy ≠ 0) :
    forwardTransform a (translatePoint toLocal s g) = toLocal g := by
  unfold forwardTransform translatePoint
  simp only [ha, Option.getD_some]
  have h1 : ((toLocal g).1 - a.tx) / a.xx * a.xx + a.tx = (toLocal g).1 := by
    rw [div_mul_cancel₀ _ hx]; ring
  have h2 : ((toLocal g).2 - a.ty) / a.yy * a.yy + a.ty = (toLocal g).2 := by
    rw [div_mul_cancel₀ _ hy]; ring
  simp [h1, h2]

/-- Witness for C6 at a concrete alignment result and point. -/
theorem translate_roundtrip_witness :
    forwardTransform ⟨2, 4, 10, 20⟩
        (translatePoint (fun p => p) { baseState with aligned := some ⟨2, 4, 10, 20⟩ } (14, 44))
      = (14, 44) :=
  translate_roundtrip (fun p => p) { baseState with aligned := some ⟨2, 4, 10, 20⟩ }
    ⟨2, 4, 10, 20⟩ (14, 44) rfl (by norm_num) (by norm_num)

/-- C10: on an interactive sprite with no cached alignment result, the
pointer handler falls back to the identity transform, so every active
state-machine instance receives the sprite-local pointer coordinates
unchanged. -/
theorem pointer_identity_fallback (toLocal : Rat × Rat → Rat × Rat)
    (s : RiveSpriteState) (g : Rat × Rat)
    (hi : s.interactive = true) (ha : s.aligned = none) :
    pointerDownCalls toLocal s g = s.stateMachines.map (fun m => (m.id, toLocal g)) := by
  unfold pointerDownCalls translatePoint
  simp [hi, ha]

/-- Witness for C10: an uncached sprite with two live machines forwards the
local point (7, 9) to both, unchanged. -/
theorem pointer_identity_fallback_witness :
    pointerDownCalls (fun p => p)
        { baseState with stateMachines := [⟨1, some smD⟩, ⟨2, none⟩] } (7, 9)
      = [(1, (7, 9)), (2, (7, 9))] := by
  have h := pointer_identity_fallback (fun p => p)
    { baseState with stateMachines := [⟨1, some smD⟩, ⟨2, none⟩] } (7, 9) rfl rfl
  simpa using h

/-- C2 counterexample: in a frame step where both active state machines
report one changed state, the `onStateChange` callback is invoked twice —
once per changed machine, each time with that machine's list — not exactly
once for the step: the invocation sits inside the per-machine loop of
`advanceStateMachines`. -/
theorem stateChange_cb_twice_per_step :
    cbCount (renderLoop (fun _ => ["A"]) ⟨twoMachineSprite, ⟨1, []⟩⟩ 1000).2 = 2 ∧
    cbPayloads (renderLoop (fun _ => ["A"]) ⟨twoMachineSprite, ⟨1, []⟩⟩ 1000).2
      = [["A"], ["A"]] := by
  decide

/-- C2 amended: when the callback is set, one frame's state-machine advance
invokes the state-change callback once per machine that reports at least one
changed state, in machine order, each time with that machine's changed state
names; machines reporting no change cause no invocation, and nothing is
invoked when the callback is unset. -/
theorem stateChange_cb_once_per_changed_machine (cbSet : Bool) (changed : ChangedStates)
    (ms : List SMInstance) (elapsed : Rat) :
    cbPayloads (advanceStateMachines cbSet changed ms elapsed)
      = if cbSet then
          (ms.filter (fun m => !(changed m.id).isEmpty)).map (fun m => changed m.id)
        else [] := by
  induction ms with
  | nil => cases cbSet <;> simp [advanceStateMachines, cbPayloads]
  | cons m tl ih =>
    have hsplit : advanceStateMachines cbSet changed (m :: tl) elapsed
        = (Ev.smAdvance m.id elapsed ::
            (if cbSet && !(changed m.id).isEmpty then
              if !(changed m.id).isEmpty then [Ev.stateChangeCb (changed m.id)] else []
            else []))
          ++ advanceStateMachines cbSet changed tl elapsed := by
      simp [advanceStateMachines]
    rw [hsplit]
    unfold cbPayloads at ih ⊢
    rw [List.cons_append, List.filterMap_cons, List.filterMap_append]
    cases cbSet with
    | false => simpa using ih
    | true =>
      by_cases hm : ((changed m.id).isEmpty : Bool)
      · rw [ih]
        simp [List.filter_cons, hm]
      · have hm' : (!(changed m.id).isEmpty) = true := by simp [hm]
        rw [ih]
        simp [List.filter_cons, hm', List.filterMap_cons]

/-- Every event emitted by the state-machine sub-step belongs to phase 0. -/
theorem evRank_advanceStateMachines (cbSet : Bool) (changed : ChangedStates)
    (ms : List SMInstance) (elapsed : Rat) :
    ∀ e ∈ advanceStateMachines cbSet changed ms elapsed, evRank e = 0 := by
  intro e he
  unfold advanceStateMachines at he
  rw [List.mem_flatten] at he
  obtain ⟨l, hl, hel⟩ := he
  rw [List.mem_map] at hl
  obtain ⟨m, _, rfl⟩ := hl
  rcases List.mem_cons.1 hel with rfl | h
  · rfl
  · by_cases hc : (cbSet && !(changed m.id).isEmpty : Bool)
    · rw [Bool.and_eq_true] at hc
      rw [if_pos (by rw [Bool.and_eq_true]; exact hc), if_pos hc.2] at h
      rcases List.mem_singleton.1 h with rfl
      rfl
    · rw [if_neg hc] at h
      exact absurd h (List.not_mem_nil e)

/-- Every event emitted by the animation sub-step belongs to phase 1. -/
theorem evRank_advanceAnimations (animations : List AnimInstance) (elapsed : Rat) :
    ∀ e ∈ advanceAnimations animations elapsed, evRank e = 1 := by
  intro e he
  unfold advanceAnimations at he
  rw [List.mem_flatten] at he
  obtain ⟨l, hl, hel⟩ := he
  rw [List.mem_map] at hl
  obtain ⟨a, _, rfl⟩ := hl
  rcases List.mem_cons.1 hel with rfl | h
  · rfl
  · rcases List.mem_singleton.1 h with rfl
    rfl

/-- C5: in every frame step with a loaded artboard and renderer, the emitted
engine calls are phase-monotone — every state-machine advance (and callback)
precedes every animation advance/apply, which precede the single artboard
advance, which precedes drawing — the step does emit an artboard advance,
and drawing is the last thing that happens. -/
theorem frame_step_phase_order (changed : ChangedStates) (sys : Sys) (time : Rat)
    (hab : sys.sprite.artboard.isSome = true) (hr : sys.sprite.rendererLoaded = true) :
    ((renderLoop changed sys time).2).Pairwise (fun a b => evRank a ≤ evRank b) ∧
    (∃ e, Ev.artboardAdvance e ∈ (renderLoop changed sys time).2) ∧
    ((renderLoop changed sys time).2).getLast? = some Ev.draw := by
  obtain ⟨el, htrace⟩ : ∃ el, (renderLoop changed sys time).2
      = advanceStateMachines sys.sprite.onStateChangeSet changed sys.sprite.stateMachines el
        ++ (advanceAnimations sys.sprite.animations el
        ++ [Ev.artboardAdvance el, Ev.draw]) :=
    ⟨(time - if sys.sprite.lastTime = 0 then time else sys.sprite.lastTime) / 1000,
      by simp [renderLoop, hab, hr]⟩
  rw [htrace]
  refine ⟨?_, ⟨el, ?_⟩, ?_⟩
  · rw [List.pairwise_append]
    refine ⟨?_, ?_, ?_⟩
    · refine List.pairwise_of_forall_mem_list ?_
      intro a ha b hb
      rw [evRank_advanceStateMachines _ _ _ _ a ha, evRank_advanceStateMachines _ _ _ _ b hb]
    · rw [List.pairwise_append]
      refine ⟨?_, ?_, ?_⟩
      · refine List.pairwise_of_forall_mem_list ?_
        intro a ha b hb
        rw [evRank_advanceAnimations _ _ a ha, evRank_advanceAnimations _ _ b hb]
      · refine List.Pairwise.cons ?_ ?_
        · intro b hb
          rcases List.mem_singleton.1 hb with rfl
          norm_num [evRank]
        · simp
      · intro a ha b hb
        rw [evRank_advanceAnimations _ _ a ha]
        rcases List.mem_cons.1 hb with rfl | hb
        · norm_num [evRank]
        · rcases List.mem_singleton.1 hb with rfl
          norm_num [evRank]
    · intro a ha b hb
      rw [evRank_advanceStateMachines _ _ _ _ a ha]
      exact Nat.zero_le _
  · rw [List.mem_append, List.mem_append]
    exact Or.inr (Or.inr (List.mem_cons_self _ _))
  · rw [List.getLast?_append, List.getLast?_append]
    rfl

/-- Witness for C5: a concrete frame step over two machines emits a
phase-monotone trace ending in a draw. -/
theorem frame_step_phase_order_witness :
    ((renderLoop (fun _ => ["A"]) ⟨twoMachineSprite, ⟨1, []⟩⟩ 1000).2).Pairwise
        (fun a b => evRank a ≤ evRank b) ∧
    (∃ e, Ev.artboardAdvance e ∈ (renderLoop (fun _ => ["A"]) ⟨twoMachineSprite, ⟨1, []⟩⟩ 1000).2) ∧
    ((renderLoop (fun _ => ["A"]) ⟨twoMachineSprite, ⟨1, []⟩⟩ 1000).2).getLast?
      = some Ev.draw :=
  frame_step_phase_order (fun _ => ["A"]) ⟨twoMachineSprite, ⟨1, []⟩⟩ 1000 rfl rfl

/-- Computation of `loadStateMachine` with a single resolvable name: delete
every instance of that name, append a fresh instance built from the looked-up
machine, then rebuild the registry. -/
theorem loadStateMachine_single_eq (s : RiveSpriteState) (ab : ArtboardInstance)
    (n : String) (d : StateMachineDesc)
    (hab : s.artboard = some ab) (hr : s.riveLoaded = true)
    (hd : stateMachineByName ab.desc n = some d) :
    loadStateMachine s [n] = initInputFields
      { s with
        stateMachines := s.stateMachines.filter (fun m => !m.nameIs n) ++ [⟨s.nextId, some d⟩]
        deleted := (s.stateMachines.filter (fun m => m.nameIs n)).map (fun m => m.id) ++ s.deleted
        nextId := s.nextId + 1 } := by
  simp [loadStateMachine, hab, hr, hd, unloadStateMachine]

/-- C7: calling `loadStateMachine` twice in succession with the same name of
a machine that exists in the loaded artboard leaves exactly one live
instance of that name in the list, and every instance of that name present
after the first call has been deleted by the second call (destroyed before
the replacement was registered). -/
theorem loadStateMachine_twice_single_instance (s : RiveSpriteState)
    (ab : ArtboardInstance) (n : String)
    (hab : s.artboard = some ab) (hr : s.riveLoaded = true)
    (hn : ∃ d ∈ ab.desc.stateMachines, d.name = n) :
    (loadStateMachine (loadStateMachine s [n]) [n]).stateMachines.countP
        (fun m => m.nameIs n) = 1 ∧
    ∀ m ∈ (loadStateMachine s [n]).stateMachines, m.nameIs n = true →
      m.id ∈ (loadStateMachine (loadStateMachine s [n]) [n]).deleted := by
  have hsome : (ab.desc.stateMachines.find? (fun d => d.name == n)).isSome := by
    rw [List.find?_isSome]
    obtain ⟨d, hd, hdn⟩ := hn
    exact ⟨d, hd, by simp [hdn]⟩
  obtain ⟨d, hd⟩ := Option.isSome_iff_exists.1 hsome
  have hdn : (d.name == n) = true := by
    have hp := List.find?_some hd
    simpa using hp
  have hd' : stateMachineByName ab.desc n = some d := hd
  have h1 := loadStateMachine_single_eq s ab n d hab hr hd'
  have h1sm : (loadStateMachine s [n]).stateMachines
      = s.stateMachines.filter (fun m => !m.nameIs n) ++ [⟨s.nextId, some d⟩] := by
    rw [h1]; simp [initInputFields]
  have h1ab : (loadStateMachine s [n]).artboard = some ab := by
    rw [h1]; simpa [initInputFields] using hab
  have h1r : (loadStateMachine s [n]).riveLoaded = true := by
    rw [h1]; simpa [initInputFields] using hr
  have h2 := loadStateMachine_single_eq (loadStateMachine s [n]) ab n d h1ab h1r hd'
  have h2sm : (loadStateMachine (loadStateMachine s [n]) [n]).stateMachines
      = (loadStateMachine s [n]).stateMachines.filter (fun m => !m.nameIs n)
        ++ [⟨(loadStateMachine s [n]).nextId, some d⟩] := by
    rw [h2]; simp [initInputFields]
  have h2del : (loadStateMachine (loadStateMachine s [n]) [n]).deleted
      = ((loadStateMachine s [n]).stateMachines.filter (fun m => m.nameIs n)).map
          (fun m => m.id) ++ (loadStateMachine s [n]).deleted := by
    rw [h2]; simp [initInputFields]
  constructor
  · rw [h2sm, List.countP_append]
    have hzero : ((loadStateMachine s [n]).stateMachines.filter
        (fun m => !m.nameIs n)).countP (fun m => m.nameIs n) = 0 := by
      rw [List.countP_eq_zero]
      intro m hm
      have := List.of_mem_filter hm
      simp at this
      simp [this]
    rw [hzero]
    have hone : SMInstance.nameIs ⟨(loadStateMachine s [n]).nextId, some d⟩ n = true := by
      simp only [SMInstance.nameIs]
      exact hdn
    simp [List.countP_cons, hone]
  · intro m hm hmn
    rw [h2del, List.mem_append]
    exact Or.inl (List.mem_map.2 ⟨m, List.mem_filter.2 ⟨hm, hmn⟩, rfl⟩)

/-- Witness for C7 on the sample artboard: loading "M" twice yields exactly
one live instance named "M". -/
theorem loadStateMachine_twice_single_instance_witness :
    (loadStateMachine (loadStateMachine { baseState with artboard := some ⟨0, abD⟩ } ["M"])
        ["M"]).stateMachines.countP (fun m => m.nameIs "M") = 1 :=
  (loadStateMachine_twice_single_instance { baseState with artboard := some ⟨0, abD⟩ }
    ⟨0, abD⟩ "M" rfl rfl ⟨smD, by decide, rfl⟩).1

/-- C8: calling `loadArtboard` with a name that does not exist in the scene —
or with no scene loaded at all (in which case no artboard can be live) —
raises no failure and leaves the artboard unset; the instance lists, the
input-field registry and the cached alignment are untouched (the only
side effect is deleting the previously live artboard, when there was one). -/
theorem loadArtboard_missing_name_silent
    (comp : Fit → Alignment → Bounds → Bounds → Aligned) (s : RiveSpriteState) (n : String)
    (h : (s.file = none ∧ s.artboard = none) ∨
         (∃ f, s.file = some f ∧ s.canvas = true ∧ ∀ a ∈ f.artboards, a.name ≠ n)) :
    (loadArtboard comp s (some n)).artboard = none ∧
    (loadArtboard comp s (some n)).animations = s.animations ∧
    (loadArtboard comp s (some n)).stateMachines = s.stateMachines ∧
    (loadArtboard comp s (some n)).inputFields = s.inputFields ∧
    (loadArtboard comp s (some n)).aligned = s.aligned := by
  rcases h with ⟨hf, hab⟩ | ⟨f, hf, hc, hmiss⟩
  · simp [loadArtboard, updateSize, hf, hab]
  · have hfind : f.artboards.find? (fun a => a.name == n) = none := by
      rw [List.find?_eq_none]
      intro a ha
      simp only [beq_iff_eq]
      exact fun hx => hmiss a ha hx
    cases hsab : s.artboard with
    | none =>
      simp [loadArtboard, updateSize, hf, hc, hsab, artboardByName, hfind]
    | some ab0 =>
      simp [loadArtboard, updateSize, hf, hc, hsab, artboardByName, hfind]

/-- Witness for C8: on the loaded sample sprite, loading the nonexistent
artboard "Nope" leaves the artboard unset and everything else untouched. -/
theorem loadArtboard_missing_name_silent_witness :
    (loadArtboard comp0 loadedSprite (some "Nope")).artboard = none ∧
    (loadArtboard comp0 loadedSprite (some "Nope")).animations = loadedSprite.animations :=
  ⟨(loadArtboard_missing_name_silent comp0 loadedSprite "Nope"
      (Or.inr ⟨fileD, rfl, rfl, by decide⟩)).1,
   (loadArtboard_missing_name_silent comp0 loadedSprite "Nope"
      (Or.inr ⟨fileD, rfl, rfl, by decide⟩)).2.1⟩

/-- C4: counterexample run refuting both halves of the claim on the code.
`renderLoop` re-schedules itself but discards the new handle, so after the
first tick `_animFrame` is stale; `disable()` then cancels a frame that
already fired, the genuinely pending frame still arrives, and — because the
artboard/renderer check does not consult `_enabled` — it advances the
artboard by a full second while disabled.  Moreover neither `disable()` nor
`enable()` resets `_lastTime`, so the first tick after re-enabling advances
by the whole disabled gap (7 seconds here), not from elapsed = 0. -/
theorem disable_stale_handle_advances :
    run4d.sprite.enabled = false ∧
    run4e.2 = [Ev.artboardAdvance 1, Ev.draw] ∧
    run4g.2 = [Ev.artboardAdvance 7, Ev.draw] := by
  refine ⟨rfl, ?_, ?_⟩
  · norm_num [run4e, run4d, run4c, run4b, run4a, hostTick, renderLoop, enable, disable,
      chg0, runSprite, baseState, fileD, abD, smD, Host.raf, Host.caf,
      advanceStateMachines, advanceAnimations]
  · norm_num [run4g, run4f, run4e, run4d, run4c, run4b, run4a, hostTick, renderLoop,
      enable, disable, chg0, runSprite, baseState, fileD, abD, smD, Host.raf, Host.caf,
      advanceStateMachines, advanceAnimations]

end RivePixi
